import Mathlib

/-!
# Verification of the glint template-signature engine

A shallow embedding of the type-level invocation engine found in
`invoke.d.ts` and `built-ins/primitives.d.ts` (both under
`packages/template`), together with the
parts of the core package (`signature.d.ts`, `blocks.d.ts`,
`resolution.d.ts`) that those files import but whose sources are not in the
repository snapshot; those parts are modelled from the design document and
are marked `Modelled from the spec:` in their doc comments.

The engine is a purely static, type-level computation: every entity is a
*template signature* whose completion kind is exactly one of
`ReturnsValue<T>`, `AcceptsBlocks<BlockSet>`, `CreatesModifier`, and the
three dispatcher entry points `invokeInline` / `invokeModifier` /
`invokeBlock` validate the completion kind and, for block invocations,
the block contract.  We embed the fragment of the host type universe the
signatures need (`Ty`), host-type assignability restricted to that fragment
(`Sub`), block sets, callbacks with yielding bodies, and the dispatcher as
total functions into `Except`.
-/

namespace Glint

/-- The fragment of the host type universe used by the signatures under
verification: primitive types, the top type `unknown`, a single in-scope
type parameter `tvar` (signatures in the source never nest two distinct
type parameters in a position a claim exercises), homogeneous arrays, and
binary unions. -/
inductive Ty where
  | str
  | num
  | bool
  | unit
  | unknown
  | tvar
  | list (elem : Ty)
  | union (a b : Ty)
deriving DecidableEq, Repr

/-- Host-type assignability on the embedded fragment, clause by clause:
`unknown` is the top type; a union is assignable to `b` when both arms
are; `a` is assignable to a union when it is assignable to one arm;
arrays are covariant.  The recursion descends into both sides, so it is
written against an explicit fuel that `Sub` instantiates with a
sufficient bound; every clause matches the assignability rule it
implements. -/
def subFuel : Nat → Ty → Ty → Bool
  | 0, _, _ => false
  | Nat.succ k, a, b =>
    match a, b with
    | Ty.union x y, c => subFuel k x c && subFuel k y c
    | _, Ty.unknown => true
    | Ty.str, Ty.str => true
    | Ty.num, Ty.num => true
    | Ty.bool, Ty.bool => true
    | Ty.unit, Ty.unit => true
    | Ty.tvar, Ty.tvar => true
    | Ty.list x, Ty.list y => subFuel k x y
    | c, Ty.union x y => subFuel k c x || subFuel k c y
    | _, _ => false

/-- Structural size of a type, used to bound the fuel of `subFuel`. -/
def tySize : Ty → Nat
  | Ty.list t => tySize t + 1
  | Ty.union a b => tySize a + tySize b + 1
  | _ => 1

/-- Host-type assignability: `Sub a b` means a value of type `a` is
assignable where `b` is expected.  Each recursive step of `subFuel`
strictly shrinks the combined size of the two types, so `tySize a +
tySize b` fuel always suffices. -/
def Sub (a b : Ty) : Bool :=
  subFuel (tySize a + tySize b) a b

/-- One entry of a `BlockSet`: the parameter types the block callback will
be called with, and whether the block is optional (`inverse?():` in the
source) or mandatory (`default(item: T, index: number):`). -/
structure BlockEntry where
  params : List Ty
  optional : Bool
deriving DecidableEq, Repr

/-- A `BlockSet`: the mapping from block name to parameter shape carried
by an `AcceptsBlocks<...>` completion, e.g.
`{ default(item: T, index: number): BlockResult; inverse?(): BlockResult }`. -/
abbrev BlockSet : Type := List (String × BlockEntry)

/-- The completion kind of a specialized signature — exactly one of
`ReturnsValue<T>`, `AcceptsBlocks<BlockSet>`, `CreatesModifier`
(`signature.d.ts` re-exported through `invoke.d.ts`). -/
inductive Completion where
  | returnsValue (t : Ty)
  | acceptsBlocks (blocks : BlockSet)
  | createsModifier
deriving DecidableEq, Repr

/-- A yield event: `toBlock(name, ...values)` captures the target block
name and the ordered types of the yielded values (`BlockYield<K, T>` in
`blocks.d.ts`). -/
abbrev YieldSet : Type := List (String × List Ty)

/-- One statement of a block callback body: either a direct
`yield toBlock(name, ...values)` or a nested `yield invokeBlock(...)`
whose already-aggregated yield set passes transparently upward. -/
inductive Stmt where
  | toBlock (name : String) (tys : List Ty)
  | nested (yields : YieldSet)
deriving DecidableEq, Repr

/-- The yield events one statement contributes to its enclosing body. -/
def stmtYields : Stmt → YieldSet
  | Stmt.toBlock n ts => [(n, ts)]
  | Stmt.nested ys => ys

/-- The yield events of a whole body: the union (as a list) of the
contributions of its statements. -/
def bodyYields (body : List Stmt) : YieldSet :=
  (body.map stmtYields).flatten

/-- A block callback supplied at an `invokeBlock` call site: the parameter
types it declares and its (generator) body. -/
structure Callback where
  params : List Ty
  body : List Stmt
deriving DecidableEq, Repr

/-- The static failure kinds of the dispatcher, named as in the design
document (the source surfaces each as a host type error on the
corresponding constraint of `invoke.d.ts`). -/
inductive InvokeError where
  | NotInvokableInline
  | NotAModifier
  | NotBlockAccepting
  | BlockNameMismatch
  | BlockParameterMismatch
deriving DecidableEq, Repr

/-- Names of the blocks a `BlockSet` marks mandatory. -/
def mandatoryKeys (bs : BlockSet) : List String :=
  (bs.filter (fun e => !e.2.optional)).map Prod.fst

/-- All block names of a `BlockSet`. -/
def keysOf (bs : BlockSet) : List String :=
  bs.map Prod.fst

/-- The block-name validation of `invokeBlock`: `Impls extends
Parameters<T>[0]` forces every mandatory key of the block set to be
supplied, and `...names: Array<keyof Parameters<T>[0]>` forces every
supplied name to be a key of the block set. -/
def checkNames (bs : BlockSet) (names : List String) : Bool :=
  (mandatoryKeys bs).all (fun m => names.contains m)
    && names.all (fun n => (keysOf bs).contains n)

/-- Contravariant compatibility of a supplied callback's declared
parameters against a block-set entry's parameters: the callback may
declare fewer parameters, and each declared parameter type must be at
least as wide as the one the block set declares at that position. -/
def paramsCompat (declared cbParams : List Ty) : Bool :=
  decide (cbParams.length ≤ declared.length)
    && (List.zip declared cbParams).all (fun pr => Sub pr.1 pr.2)

/-- The callback-parameter validation of `invokeBlock`: each supplied
callback must be assignable to its block-set entry (function-parameter
assignability is contravariant in the host type system). Names not in the
block set are the name check's concern, not this one's. -/
def checkParams (bs : BlockSet) (impls : List (String × Callback)) : Bool :=
  impls.all (fun i =>
    match bs.find? (fun e => e.1 == i.1) with
    | some e => paramsCompat e.2.params i.2.params
    | none => true)

/-- The union, over all supplied callbacks, of the yield events of their
bodies — the value `invokeBlock` returns
(`YieldsFromBlock<Impls[keyof Impls]>`). -/
def aggregateYields (impls : List (String × Callback)) : YieldSet :=
  (impls.map (fun i => bodyYields i.2.body)).flatten

/-- `invokeInline` (`invoke.d.ts` line 30): requires
`T extends ReturnsValue<any>` and produces `ReturnType<T>[typeof Return]`,
i.e. the wrapped value type. -/
def invokeInline : Completion → Except InvokeError Ty
  | Completion.returnsValue t => Except.ok t
  | _ => Except.error InvokeError.NotInvokableInline

/-- `invokeModifier` (`invoke.d.ts` line 39): requires
`T extends CreatesModifier` and produces `void`. -/
def invokeModifier : Completion → Except InvokeError Unit
  | Completion.createsModifier => Except.ok ()
  | _ => Except.error InvokeError.NotAModifier

/-- `invokeBlock` (`invoke.d.ts` lines 54-66): requires
`T extends AcceptsBlocks<any>`; validates the supplied block names against
the block set, then each callback's parameters contravariantly, and
returns the aggregated yield set of the supplied callbacks. The first
failing check wins. -/
def invokeBlock :
    Completion → List (String × Callback) → Except InvokeError YieldSet
  | Completion.acceptsBlocks bs, impls =>
    if checkNames bs (impls.map Prod.fst) then
      if checkParams bs impls then
        Except.ok (aggregateYields impls)
      else
        Except.error InvokeError.BlockParameterMismatch
    else
      Except.error InvokeError.BlockNameMismatch
  | Completion.returnsValue _, _ => Except.error InvokeError.NotBlockAccepting
  | Completion.createsModifier, _ => Except.error InvokeError.NotBlockAccepting

/-! ## Built-in signatures (`built-ins/primitives.d.ts`) -/

/-- Substitution of the single in-scope type parameter by `b`; the host
performs this when an argument fixes the parameter, and with `b` the
parameter's declared bound when nothing fixes it (degradation). -/
def subst1 (b : Ty) : Ty → Ty
  | Ty.tvar => b
  | Ty.list t => Ty.list (subst1 b t)
  | Ty.union x y => Ty.union (subst1 b x) (subst1 b y)
  | t => t

/-- A possibly type-parameterized host function value, as `fn` receives
it: the declared upper bound of its (single) type parameter (`unknown`
when unconstrained or when the function is monomorphic), its parameter
types, and its return type. -/
structure GFun where
  bound : Ty
  params : List Ty
  ret : Ty
deriving DecidableEq, Repr

/-- The host's inference when `fn` pre-binds arguments: the type parameter
is fixed by the first pre-bound argument supplied directly at a
parameter-typed position, and degrades to its declared bound otherwise. -/
def fixOf (f : GFun) (bound : List Ty) : Ty :=
  match (List.zip f.params bound).find? (fun pr => pr.1 == Ty.tvar) with
  | some pr => pr.2
  | none => f.bound

/-- `FnHelper` (`primitives.d.ts` lines 89-95): five overloads, one per
fixed number of pre-bound positional arguments (zero through four).  Each
overload takes `f` and that many leading arguments and specializes to the
function of the remaining parameters; an unfixed type parameter degrades
to its bound.  Returns `none` when no overload applies. -/
def fnHelper (f : GFun) (prebound : List Ty) : Option (List Ty × Ty) :=
  let t := fixOf f prebound
  let ps := f.params.map (subst1 t)
  if decide (prebound.length ≤ 4)
      && decide (prebound.length ≤ ps.length)
      && (List.zip prebound ps).all (fun pr => Sub pr.1 pr.2) then
    some (ps.drop prebound.length, subst1 t f.ret)
  else
    none

/-- The block set of `EachHelper` (`primitives.d.ts` lines 64-72) at a
given element type `T`:
`{ default(item: T, index: number): BlockResult; inverse?(): BlockResult }`. -/
def eachBlocks (t : Ty) : BlockSet :=
  [("default", ⟨[t, Ty.num], false⟩), ("inverse", ⟨[], true⟩)]

/-- Binding `EachHelper`'s arguments: `items : T[]` unifies `T` with the
element type of the supplied array, specializing the signature's
completion to `AcceptsBlocks` of `eachBlocks T`; a non-array argument does
not match `T[]`. -/
def eachBind (itemsTy : Ty) : Option Completion :=
  match itemsTy with
  | Ty.list t => some (Completion.acceptsBlocks (eachBlocks t))
  | _ => none

/-- The block set of `LetHelper` (`primitives.d.ts` lines 97-104) at the
tuple of bound positional value types `T`:
`{ default(...values: T): BlockResult }`. -/
def lettBlocks (tys : List Ty) : BlockSet :=
  [("default", ⟨tys, false⟩)]

/-- Binding `LetHelper`'s positional values fixes the tuple parameter `T`
to exactly their types, in order, and completes with
`AcceptsBlocks` of `lettBlocks T`. -/
def lettBind (tys : List Ty) : Completion :=
  Completion.acceptsBlocks (lettBlocks tys)

/-- One named argument of a signature: key, value type, optionality. -/
structure NamedArg where
  name : String
  ty : Ty
  optional : Bool
deriving DecidableEq, Repr

/-- The named-argument shape `ComponentHelper` (`primitives.d.ts` lines
46-58) gives the wrapped component:
`Omit<ArgsFor<Component>, GivenArgs> & Partial<Pick<ArgsFor<Component>, GivenArgs>>`
— the component's arguments whose keys were not pre-bound, unchanged,
together with the pre-bound keys re-included with their types marked
optional. -/
def componentArgs (cargs : List NamedArg) (given : List String) : List NamedArg :=
  cargs.filter (fun a => !(given.contains a.name))
    ++ (cargs.filter (fun a => given.contains a.name)).map
        (fun a => { a with optional := true })

/-- The named-argument shape claim C5 reads the spec as describing: the
set difference alone, with the remaining keys (those not pre-bound)
becoming optional.  Stated only to compare against `componentArgs`, the
shape the source actually produces. -/
def claimedComponentArgs (cargs : List NamedArg) (given : List String) :
    List NamedArg :=
  (cargs.filter (fun a => !(given.contains a.name))).map
    (fun a => { a with optional := true })

/-! ## Resolution and the template wrapper (core package) -/

/-- A template signature after resolution: its count of still-free type
parameters, named-argument shape, positional-argument shape, and
completion kind. -/
structure Signature where
  typeParams : Nat
  namedArgs : List NamedArg
  positionalArgs : List Ty
  completion : Completion
deriving DecidableEq, Repr

/-- `Invokable` (`invoke.d.ts` line 17): a no-op wrapping type that merely
asserts its argument is a valid template signature —
`type Invokable<T extends AnySignature> = T`. -/
def Invokable (s : Signature) : Signature := s

/-- A template-scope value, as the resolver sees it: either it carries a
template signature (a component class, helper, or built-in) or it is a
plain value of some host type. -/
inductive Entity where
  | invokable (s : Signature)
  | plain (t : Ty)
deriving DecidableEq, Repr

/-- The resolver's failure kind. -/
inductive ResolveError where
  | NoSignature
deriving DecidableEq, Repr

/-- Modelled from the spec: `resolve` of `resolution.d.ts` (not in the
repository snapshot; documented in the README and design document §4.3) —
maps a value carrying a template signature to that signature and fails
with `NoSignature` on a value carrying none. -/
def resolve : Entity → Except ResolveError Signature
  | Entity.invokable s => Except.ok s
  | Entity.plain _ => Except.error ResolveError.NoSignature

/-- Modelled from the spec: `resolveOrReturn` of `resolution.d.ts` (not in
the repository snapshot; README "Emitting Values" section and design
document §4.3) — like `resolve`, but a value with no signature is treated
as a zero-argument, zero-type-parameter helper returning its own type. -/
def resolveOrReturn : Entity → Except ResolveError Signature
  | Entity.invokable s => Except.ok s
  | Entity.plain t => Except.ok ⟨0, [], [], Completion.returnsValue t⟩

/-- Modelled from the spec: the `template` wrapper of the core package
(not in the repository snapshot; design document §4.6) — folds a body's
aggregated yield events into the blocks hash of the template's own
signature.  A direct `toBlock` statement of the body runs on every control
path and contributes a mandatory block; yields arriving through a nested
`invokeBlock` come from block callbacks that may run zero times, so their
names are marked optional.  Merging of several yields to one name into a
parameter-wise union is not needed by any claim and is not modelled. -/
def template (body : List Stmt) : BlockSet :=
  (body.map (fun s =>
    match s with
    | Stmt.toBlock n ts => [(n, (⟨ts, false⟩ : BlockEntry))]
    | Stmt.nested ys => ys.map (fun y => (y.1, (⟨y.2, true⟩ : BlockEntry))))).flatten

/-! ## Theorems -/

/-- Inversion of a successful `invokeBlock`: success is exactly passing
both validations, and the result is the aggregated yield set. -/
theorem invokeBlock_ok_iff (bs : BlockSet) (impls : List (String × Callback))
    (ys : YieldSet) :
    invokeBlock (Completion.acceptsBlocks bs) impls = Except.ok ys ↔
      checkNames bs (impls.map Prod.fst) = true ∧ checkParams bs impls = true
        ∧ ys = aggregateYields impls := by
  simp only [invokeBlock]
  split_ifs with h1 h2
  · simp [h1, h2, eq_comm]
  · simp [h1, h2]
  · simp [h1]

/-- C1: a specialized signature succeeds through exactly the dispatcher
entry point matching its completion kind — `invokeInline` on
`ReturnsValue<T>` produces the value of type `T`, `invokeModifier` on
`CreatesModifier` produces void, and `invokeBlock` on `AcceptsBlocks` (with
a valid block hash) produces the aggregated yields — and each of the six
mismatched combinations fails with the corresponding error
(`NotInvokableInline`, `NotAModifier`, `NotBlockAccepting`). -/
theorem dispatch_matches_completion_kind :
    (∀ t, invokeInline (Completion.returnsValue t) = Except.ok t)
    ∧ (∀ bs, invokeInline (Completion.acceptsBlocks bs)
        = Except.error InvokeError.NotInvokableInline)
    ∧ (invokeInline Completion.createsModifier
        = Except.error InvokeError.NotInvokableInline)
    ∧ (invokeModifier Completion.createsModifier = Except.ok ())
    ∧ (∀ t, invokeModifier (Completion.returnsValue t)
        = Except.error InvokeError.NotAModifier)
    ∧ (∀ bs, invokeModifier (Completion.acceptsBlocks bs)
        = Except.error InvokeError.NotAModifier)
    ∧ (∀ bs impls, checkNames bs (impls.map Prod.fst) = true →
        checkParams bs impls = true →
        invokeBlock (Completion.acceptsBlocks bs) impls
          = Except.ok (aggregateYields impls))
    ∧ (∀ t impls, invokeBlock (Completion.returnsValue t) impls
        = Except.error InvokeError.NotBlockAccepting)
    ∧ (∀ impls, invokeBlock Completion.createsModifier impls
        = Except.error InvokeError.NotBlockAccepting) := by
  refine ⟨fun t => rfl, fun bs => rfl, rfl, rfl, fun t => rfl, fun bs => rfl,
    ?_, fun t impls => rfl, fun impls => rfl⟩
  intro bs impls h1 h2
  simp [invokeBlock, h1, h2]

/-- Witness for C1 at a concrete block invocation. -/
theorem dispatch_matches_completion_kind_witness :
    invokeBlock (Completion.acceptsBlocks [("default", ⟨[Ty.num], false⟩)])
        [("default", ⟨[Ty.num], []⟩)]
      = Except.ok (aggregateYields [("default", (⟨[Ty.num], []⟩ : Callback))]) :=
  dispatch_matches_completion_kind.2.2.2.2.2.2.1 _ _ (by decide) (by decide)

/-- C2: the value of a successful `invokeBlock` holds exactly the yield
events occurring in the supplied callbacks' bodies; callbacks with no
yield events contribute nothing; and an aggregated yield set arriving
from a nested `invokeBlock` passes upward unchanged. -/
theorem invokeBlock_aggregates_yields :
    (∀ bs impls ys,
      invokeBlock (Completion.acceptsBlocks bs) impls = Except.ok ys →
      ∀ n ts, (n, ts) ∈ ys ↔ ∃ p ∈ impls, (n, ts) ∈ bodyYields p.2.body)
    ∧ (∀ impls : List (String × Callback),
        (∀ p ∈ impls, bodyYields p.2.body = []) → aggregateYields impls = [])
    ∧ (∀ ys, stmtYields (Stmt.nested ys) = ys) := by
  refine ⟨?_, ?_, fun ys => rfl⟩
  · intro bs impls ys h n ts
    obtain ⟨-, -, hys⟩ := (invokeBlock_ok_iff bs impls ys).mp h
    subst hys
    simp only [aggregateYields, List.mem_flatten, List.mem_map]
    constructor
    · rintro ⟨l, ⟨p, hp, rfl⟩, hm⟩
      exact ⟨p, hp, hm⟩
    · rintro ⟨p, hp, hm⟩
      exact ⟨_, ⟨p, hp, rfl⟩, hm⟩
  · intro impls h
    simp only [aggregateYields, List.flatten_eq_nil_iff, List.mem_map]
    rintro l ⟨p, hp, rfl⟩
    exact h p hp

/-- Witness for C2 at a concrete invocation whose callback yields once. -/
theorem invokeBlock_aggregates_yields_witness :
    ("out", [Ty.str]) ∈ aggregateYields
        [("default", (⟨[Ty.num], [Stmt.toBlock "out" [Ty.str]]⟩ : Callback))] :=
  (invokeBlock_aggregates_yields.1 [("default", ⟨[Ty.num], false⟩)]
      [("default", ⟨[Ty.num], [Stmt.toBlock "out" [Ty.str]]⟩)] _
      rfl "out" [Ty.str]).mpr
    ⟨("default", ⟨[Ty.num], [Stmt.toBlock "out" [Ty.str]]⟩), by decide, by decide⟩

/-- The block set of the spec's block-contract validation scenario:
`{ default(n: number): BlockResult, inverse?(): BlockResult }`. -/
def exBlocksC3 : BlockSet :=
  [("default", ⟨[Ty.num], false⟩), ("inverse", ⟨[], true⟩)]

/-- C3: `invokeBlock` accepts exactly the block-name sets consisting of
all mandatory keys plus any subset of the optional keys; concretely, for
`{ default(n: number), inverse?() }`, supplying only `default` succeeds,
supplying neither block fails, and supplying an extra name `extra` next
to `default` fails, both with `BlockNameMismatch`. -/
theorem blockNames_exact_contract :
    (∀ (bs : BlockSet) (names : List String),
      checkNames bs names = true ↔
        ((∀ m ∈ mandatoryKeys bs, m ∈ names) ∧ ∀ n ∈ names, n ∈ keysOf bs))
    ∧ invokeBlock (Completion.acceptsBlocks exBlocksC3)
        [("default", ⟨[Ty.num], []⟩)] = Except.ok []
    ∧ invokeBlock (Completion.acceptsBlocks exBlocksC3) []
        = Except.error InvokeError.BlockNameMismatch
    ∧ invokeBlock (Completion.acceptsBlocks exBlocksC3)
        [("default", ⟨[Ty.num], []⟩), ("extra", ⟨[], []⟩)]
        = Except.error InvokeError.BlockNameMismatch := by
  refine ⟨fun bs names => ?_, rfl, rfl, rfl⟩
  simp [checkNames, List.all_eq_true]

/-- Witness for C3's characterization at the scenario's block set. -/
theorem blockNames_exact_contract_witness :
    checkNames exBlocksC3 ["default"] = true :=
  (blockNames_exact_contract.1 exBlocksC3 ["default"]).mpr (by decide)

/-- The block set of the contravariance scenario: one mandatory block
whose parameter type is the union `number | string`. -/
def exBlocksC4 : BlockSet :=
  [("default", ⟨[Ty.union Ty.num Ty.str], false⟩)]

/-- C4: a supplied callback is compared contravariantly against its block
set entry — compatibility holds exactly when the callback declares at
most as many parameters, each at least as wide; concretely a callback
declaring no parameters or the wider `unknown` is accepted, while one
declaring the narrower `number` against `number | string` is rejected
with `BlockParameterMismatch`. -/
theorem blockParams_contravariant :
    (∀ declared cb, paramsCompat declared cb = true ↔
        (cb.length ≤ declared.length
          ∧ ∀ pr ∈ List.zip declared cb, Sub pr.1 pr.2 = true))
    ∧ invokeBlock (Completion.acceptsBlocks exBlocksC4)
        [("default", ⟨[], []⟩)] = Except.ok []
    ∧ invokeBlock (Completion.acceptsBlocks exBlocksC4)
        [("default", ⟨[Ty.unknown], []⟩)] = Except.ok []
    ∧ invokeBlock (Completion.acceptsBlocks exBlocksC4)
        [("default", ⟨[Ty.num], []⟩)]
        = Except.error InvokeError.BlockParameterMismatch := by
  refine ⟨fun declared cb => ?_, rfl, rfl, rfl⟩
  simp [paramsCompat, List.all_eq_true]

/-- Witness for C4's characterization at the scenario's entry. -/
theorem blockParams_contravariant_witness :
    paramsCompat [Ty.union Ty.num Ty.str] [Ty.unknown] = true :=
  (blockParams_contravariant.1 [Ty.union Ty.num Ty.str] [Ty.unknown]).mpr
    (by decide)

/-- The component named-argument shape of the C5 scenario: two mandatory
named arguments `a : number` and `b : string`. -/
def exArgsC5 : List NamedArg :=
  [⟨"a", Ty.num, false⟩, ⟨"b", Ty.str, false⟩]

/-- C5 counterexample: pre-binding `a`, the claim's shape (set difference
with the remainder optional) differs from what `ComponentHelper`
produces — the source keeps the non-pre-bound key `b` mandatory and
re-includes the pre-bound key `a` as optional, while the claim predicts
`b` optional and `a` gone. -/
theorem componentArgs_claim_false :
    claimedComponentArgs exArgsC5 ["a"] ≠ componentArgs exArgsC5 ["a"]
    ∧ (⟨"b", Ty.str, false⟩ : NamedArg) ∈ componentArgs exArgsC5 ["a"]
    ∧ (⟨"b", Ty.str, true⟩ : NamedArg) ∈ claimedComponentArgs exArgsC5 ["a"]
    ∧ (⟨"a", Ty.num, true⟩ : NamedArg) ∈ componentArgs exArgsC5 ["a"]
    ∧ ∀ e ∈ claimedComponentArgs exArgsC5 ["a"], NamedArg.name e ≠ "a" := by
  decide

/-- C5 amended: the wrapped entity's named arguments are exactly the
component's named arguments whose keys were not pre-bound, unchanged,
together with each pre-bound key re-included with its type and
`optional` set. -/
theorem componentArgs_shape :
    ∀ (cargs : List NamedArg) (given : List String) (a : NamedArg),
      a ∈ componentArgs cargs given ↔
        ((a ∈ cargs ∧ given.contains a.name = false)
          ∨ ∃ b ∈ cargs, given.contains b.name = true
              ∧ a = { b with optional := true }) := by
  intro cargs given a
  simp only [componentArgs, List.mem_append, List.mem_filter, List.mem_map,
    Bool.not_eq_true']
  constructor
  · rintro (h | ⟨b, ⟨hb, hg⟩, rfl⟩)
    · exact Or.inl h
    · exact Or.inr ⟨b, hb, hg, rfl⟩
  · rintro (h | ⟨b, hb, hg, rfl⟩)
    · exact Or.inl h
    · exact Or.inr ⟨b, ⟨hb, hg⟩, rfl⟩

/-- Witness for C5's amended shape at the scenario's input. -/
theorem componentArgs_shape_witness :
    (⟨"b", Ty.str, false⟩ : NamedArg) ∈ componentArgs exArgsC5 ["a"] :=
  (componentArgs_shape exArgsC5 ["a"] ⟨"b", Ty.str, false⟩).mpr
    (Or.inl (by decide))

/-- C6: `fn` has one overload per fixed number of pre-bound positional
arguments (zero through four, none beyond); pre-binding one `number` to
`(a: number, b: string) => boolean` specializes to
`(b: string) => boolean`; and with zero pre-bound arguments a
type-parameterized function's parameter and return types degrade to the
parameter's declared bound. -/
theorem fn_currying_overloads :
    (∀ f prebound, 4 < prebound.length → fnHelper f prebound = none)
    ∧ fnHelper ⟨Ty.unknown, [Ty.num, Ty.str], Ty.bool⟩ [Ty.num]
        = some ([Ty.str], Ty.bool)
    ∧ (∀ f : GFun, fnHelper f []
        = some (f.params.map (subst1 f.bound), subst1 f.bound f.ret)) := by
  refine ⟨?_, by decide, fun f => ?_⟩
  · intro f prebound h
    simp [fnHelper, Nat.not_le.mpr h]
  · simp [fnHelper, fixOf, List.zip_nil_right]

/-- Witness for C6's arity bound at five pre-bound arguments. -/
theorem fn_currying_overloads_witness :
    fnHelper ⟨Ty.unknown, [Ty.num], Ty.bool⟩
        [Ty.num, Ty.num, Ty.num, Ty.num, Ty.num] = none :=
  fn_currying_overloads.1 _ _ (by decide)

/-- C7: binding the iteration built-in with `items: string[]` fixes
`T = string`, so the `default` callback's parameters are `string` and
`number`; a `toBlock("out", item)` yield inside that callback passes
through `invokeBlock`, and the enclosing body's aggregated contract marks
`out` optional with one `string` parameter. -/
theorem each_specializes_and_aggregates :
    eachBind (Ty.list Ty.str)
        = some (Completion.acceptsBlocks (eachBlocks Ty.str))
    ∧ (eachBlocks Ty.str).find? (fun e => e.1 == "default")
        = some ("default", ⟨[Ty.str, Ty.num], false⟩)
    ∧ invokeBlock (Completion.acceptsBlocks (eachBlocks Ty.str))
        [("default", ⟨[Ty.str, Ty.num], [Stmt.toBlock "out" [Ty.str]]⟩)]
        = Except.ok [("out", [Ty.str])]
    ∧ template [Stmt.nested [("out", [Ty.str])]]
        = [("out", ⟨[Ty.str], true⟩)] :=
  ⟨rfl, by decide, rfl, rfl⟩

/-- C8: `resolveOrReturn` never fails — on a plain value of type `T` it
synthesizes the zero-argument, zero-type-parameter `ReturnsValue<T>`
signature, and on an invokable entity it returns exactly what `resolve`
returns. -/
theorem resolveOrReturn_total :
    (∀ e, ∃ s, resolveOrReturn e = Except.ok s)
    ∧ (∀ t, resolveOrReturn (Entity.plain t)
        = Except.ok ⟨0, [], [], Completion.returnsValue t⟩)
    ∧ (∀ s, resolveOrReturn (Entity.invokable s)
        = resolve (Entity.invokable s)) := by
  refine ⟨fun e => ?_, fun t => rfl, fun s => rfl⟩
  cases e with
  | invokable s => exact ⟨s, rfl⟩
  | plain t => exact ⟨_, rfl⟩

/-- C9: the `Invokable` wrapper is the identity on signatures, so a
wrapped signature is indistinguishable from the unwrapped one at every
dispatcher entry point. -/
theorem invokable_is_identity :
    (∀ s : Signature, Invokable s = s)
    ∧ (∀ s : Signature,
        invokeInline (Invokable s).completion = invokeInline s.completion)
    ∧ (∀ s : Signature,
        invokeModifier (Invokable s).completion = invokeModifier s.completion)
    ∧ (∀ (s : Signature) impls,
        invokeBlock (Invokable s).completion impls
          = invokeBlock s.completion impls) :=
  ⟨fun _ => rfl, fun _ => rfl, fun _ => rfl, fun _ _ => rfl⟩

/-- C10: binding the `let` built-in to positional values of types
`T1, ..., Tn` gives a `default` block whose parameters are exactly those
types in the same order; concretely, binding a `string` then a `number`
calls the default callback with a `string` then a `number`, and its
`toBlock("body", num, str)` yield comes out as
`("body", [number, string])` — the behaviour the repository's own
`lett` test expects. -/
theorem lett_block_receives_bound_values :
    (∀ tys, (lettBlocks tys).find? (fun e => e.1 == "default")
        = some ("default", ⟨tys, false⟩))
    ∧ (∀ tys, lettBind tys
        = Completion.acceptsBlocks [("default", ⟨tys, false⟩)])
    ∧ invokeBlock (lettBind [Ty.str, Ty.num])
        [("default", ⟨[Ty.str, Ty.num], [Stmt.toBlock "body" [Ty.num, Ty.str]]⟩)]
        = Except.ok [("body", [Ty.num, Ty.str])] := by
  refine ⟨fun tys => ?_, fun tys => rfl, rfl⟩
  simp [lettBlocks, List.find?]

end Glint
